import Mathlib

/-!
Shallow embedding of the mislabeled-image correction workflow of
`src/data_centric.py` (`process_mislabeled_images`, lines 407-470).

External effects are made explicit:
* the detector call `model(file_path, verbose=False)` is a function
  parameter returning either the list of result groups (the YOLO `results`
  sequence, each carrying a list of boxes) or a raised exception's message;
* the filesystem is the pair of directory listings (`0` = non-person,
  `1` = person).  `shutil.move(file_path, new_path)` renames within the
  same root; with a file path as destination an existing destination is
  overwritten, not an error (POSIX `os.rename` semantics, and the
  cross-device fallback `copy2` + `unlink` overwrites as well).  OS-level
  move failures such as permission denial are an oracle parameter;
* the log file is a list of structured event lines; the full file contents
  are the fixed header line, a blank line, then the rendered events;
* `datetime.now().strftime("%Y%m%d_%H%M%S")` is an opaque timestamp string
  parameter captured once per run.
-/

deriving instance DecidableEq for Except

namespace WakeVision

/-- One detected object, `box` in the source: `int(box.cls)` and
`float(box.conf)`. -/
structure Box where
  cls : Int
  conf : Rat
deriving DecidableEq

/-- Outcome of `model(file_path, verbose=False)`: either the result groups
iterated by `for result in results: for box in result.boxes`, or the
message of a raised exception. -/
inductive DetectOutcome where
  | ok (results : List (List Box))
  | err (msg : String)
deriving DecidableEq

/-- One event line of the log file body: `Moved <filename> (confidence:
<xx.xx>)` or `Error processing <filename>: <message>`. -/
inductive LogLine where
  | moved (filename : String) (conf : Rat)
  | errorLine (filename : String) (msg : String)
deriving DecidableEq

/-- Mutable state of one run: contents of the two class directories, the
event lines written to the open log file, the `moved_count` counter, and
(as a ghost field mirroring the `Moved` log writes one-to-one) the emitted
(filename, confidence) matches. -/
structure ScanState where
  nonPerson : List String
  person : List String
  log : List LogLine
  movedCount : Nat
  matchRecords : List (String × Rat)
deriving DecidableEq

/-- Render a natural number below 100 with two digits. -/
def pad2 (m : Nat) : String :=
  if m < 10 then "0" ++ toString m else toString m

/-- Two-decimal rendering of a nonnegative confidence, modelling the
f-string format `{confidence:.2f}` (round to the nearest hundredth): for
`q = a / b` the scaled numerator `⌊100 q + 1 / 2⌋ = (200 a + b) / (2 b)`
computed on the numerator and denominator directly. -/
def fmt2 (q : Rat) : String :=
  let n : Nat := (q.num.toNat * 200 + q.den) / (2 * q.den)
  toString (n / 100) ++ "." ++ pad2 (n % 100)

/-- The text of one event line as written to the log file. -/
def LogLine.render : LogLine → String
  | .moved f c => "Moved " ++ f ++ " (confidence: " ++ fmt2 c ++ ")"
  | .errorLine f e => "Error processing " ++ f ++ ": " ++ e

/-- Whether an event line is a `Moved` line. -/
def LogLine.isMoved : LogLine → Bool
  | .moved _ _ => true
  | .errorLine _ _ => false

/-- The fixed first line of every log file. -/
def header : String := "Moved Files (Person Detected in Non-Person Directory):"

/-- Full contents of the log file, line by line: the header, the blank line
from the trailing `\n\n` of the first write, then the event lines. -/
def logFileLines (events : List LogLine) : List String :=
  header :: "" :: events.map LogLine.render

/-- The extension filter `filename.lower().endswith((".jpg", ".jpeg",
".png"))`, on the character sequence of the name (`Char.toLower` lowers the
ASCII range, which covers the three extensions). -/
def isImage (filename : String) : Bool :=
  let lower := filename.data.map Char.toLower
  ".jpg".data.isSuffixOf lower || ".jpeg".data.isSuffixOf lower ||
    ".png".data.isSuffixOf lower

/-- The decision rule of line 456: `class_id == 0 and confidence >
confidence_threshold` (class 0 is the detector's person class). -/
def qualifies (threshold : Rat) (b : Box) : Bool :=
  b.cls == 0 && decide (b.conf > threshold)

/-- Effect of a successful rename of `filename` from the non-person to the
person directory: the name leaves the source listing; an existing
destination entry of the same name is overwritten in place, otherwise the
name is added. -/
def doMove (s : ScanState) (filename : String) : ScanState :=
  { s with nonPerson := s.nonPerson.erase filename,
           person := if filename ∈ s.person then s.person
                     else s.person ++ [filename] }

/-- `shutil.move(file_path, new_path)` with `new_path` a file path inside
the person directory: raises if the source file is missing or if the OS
reports a failure (the `osError` oracle, e.g. permission denied); an
existing destination file is silently overwritten, never an error. -/
def shutilMove (osError : String → Bool) (s : ScanState) (filename : String) :
    Except String ScanState :=
  if filename ∈ s.nonPerson then
    if osError filename then .error "Permission denied"
    else .ok (doMove s filename)
  else .error "No such file or directory"

/-- The three statements after a successful move (lines 459-461): the log
write, the counter increment, and the ghost match record mirroring the
`Moved` line. -/
def recordMove (s : ScanState) (filename : String) (conf : Rat) : ScanState :=
  { s with log := s.log ++ [.moved filename conf],
           movedCount := s.movedCount + 1,
           matchRecords := s.matchRecords ++ [(filename, conf)] }

/-- Combined effect on the state of one successful qualifying detection. -/
def applyMove (s : ScanState) (filename : String) (conf : Rat) : ScanState :=
  recordMove (doMove s filename) filename conf

/-- The inner loop `for box in result.boxes` (lines 453-462): skip
non-qualifying boxes; at the first qualifying box, move the file (which may
raise, carrying the state reached so far to the `except` handler), record
the move, and `break` out of this inner loop only. -/
def processBoxes (threshold : Rat) (osError : String → Bool) (filename : String) :
    List Box → ScanState → Except (String × ScanState) ScanState
  | [], s => .ok s
  | b :: rest, s =>
    if qualifies threshold b then
      match shutilMove osError s filename with
      | .error e => .error (e, s)
      | .ok s1 => .ok (recordMove s1 filename b.conf)
    else processBoxes threshold osError filename rest s

/-- The outer loop `for result in results` (line 452): result groups are
processed in order; a raised exception aborts the remaining groups. -/
def processResults (threshold : Rat) (osError : String → Bool) (filename : String) :
    List (List Box) → ScanState → Except (String × ScanState) ScanState
  | [], s => .ok s
  | g :: gs, s =>
    match processBoxes threshold osError filename g s with
    | .error es => .error es
    | .ok s1 => processResults threshold osError filename gs s1

/-- One iteration of `for filename in os.listdir(non_person_dir)` (lines
447-465): non-image names are skipped; otherwise the detector runs and its
results are processed under the `try` block; any exception (from the
detector or from a move) lands in the `except` handler, which writes an
`Error processing` line and continues. -/
def processFile (detect : String → DetectOutcome) (threshold : Rat)
    (osError : String → Bool) (s : ScanState) (filename : String) : ScanState :=
  if isImage filename then
    match detect filename with
    | .err e => { s with log := s.log ++ [.errorLine filename e] }
    | .ok results =>
      match processResults threshold osError filename results s with
      | .ok s1 => s1
      | .error (e, s1) => { s1 with log := s1.log ++ [.errorLine filename e] }
  else s

/-- Modelled from the spec (§4.2 step 4): on the first qualifying Detection
of a file, emit the Match and stop evaluating all further Detections of
that file, across result groups.  Stated only to be compared with
`processFile`, which is the translation of the source. -/
def specProcessFile (detect : String → DetectOutcome) (threshold : Rat)
    (osError : String → Bool) (s : ScanState) (filename : String) : ScanState :=
  if isImage filename then
    match detect filename with
    | .err e => { s with log := s.log ++ [.errorLine filename e] }
    | .ok results =>
      match results.flatten.find? (qualifies threshold) with
      | none => s
      | some b =>
        match shutilMove osError s filename with
        | .error e => { s with log := s.log ++ [.errorLine filename e] }
        | .ok s1 => recordMove s1 filename b.conf
  else s

/-- The whole scan loop over the snapshot of `os.listdir(non_person_dir)`. -/
def scanFold (detect : String → DetectOutcome) (threshold : Rat)
    (osError : String → Bool) : List String → ScanState → ScanState
  | [], s => s
  | f :: fs, s => scanFold detect threshold osError fs
      (processFile detect threshold osError s f)

/-- The dataset root as seen by the run: whether the two class directories
exist, and their listings (`listing0` in `os.listdir` order). -/
structure Dataset where
  root : String
  hasDir0 : Bool
  hasDir1 : Bool
  listing0 : List String
  files1 : List String
deriving DecidableEq

/-- Observable outcome of a completed run: the returned pair
`(moved_count, log_file_path)`, the final directory contents, the log file
event lines, and the ghost match records. -/
structure RunOutput where
  movedCount : Nat
  logPath : String
  nonPerson : List String
  person : List String
  log : List LogLine
  matchRecords : List (String × Rat)
deriving DecidableEq

/-- `process_mislabeled_images(model_path, dataset_root,
confidence_threshold)` (lines 407-470).  `modelLoad` is the outcome of
`YOLO(model_path)` (`some msg` when loading raises); the directory
existence check runs next, over `[non_person_dir, person_dir]` in order;
then the log file is created and the scan loop runs. -/
def process_mislabeled_images (modelLoad : Option String)
    (detect : String → DetectOutcome) (osError : String → Bool)
    (timestamp : String) (ds : Dataset) (threshold : Rat) :
    Except String RunOutput :=
  match modelLoad with
  | some e => .error ("Failed to load YOLO model: " ++ e)
  | none =>
    if ds.hasDir0 = false then
      .error ("Dataset directory not found: " ++ ds.root ++ "/0")
    else if ds.hasDir1 = false then
      .error ("Dataset directory not found: " ++ ds.root ++ "/1")
    else
      let s0 : ScanState := ⟨ds.listing0, ds.files1, [], 0, []⟩
      let sF := scanFold detect threshold osError ds.listing0 s0
      .ok ⟨sF.movedCount,
           ds.root ++ "/logs/moved_files_" ++ timestamp ++ ".txt",
           sF.nonPerson, sF.person, sF.log, sF.matchRecords⟩

/-- Match records contributed by one file of the listing, assuming the file
is still present in the non-person directory when its turn comes: the first
qualifying box in group-major order yields one record when the move
succeeds; everything else yields none. -/
def contrib (detect : String → DetectOutcome) (threshold : Rat)
    (osError : String → Bool) (f : String) : List (String × Rat) :=
  if isImage f then
    match detect f with
    | .err _ => []
    | .ok results =>
      match results.flatten.find? (qualifies threshold) with
      | none => []
      | some b => if osError f then [] else [(f, b.conf)]
  else []

/-- Concatenated match records of a list of files. -/
def contribs (detect : String → DetectOutcome) (threshold : Rat)
    (osError : String → Bool) : List String → List (String × Rat)
  | [] => []
  | f :: fs => contrib detect threshold osError f ++
      contribs detect threshold osError fs

/-- State carried by an outcome of the processing loops: a raised exception
keeps the state reached so far. -/
def stateOf : Except (String × ScanState) ScanState → ScanState
  | .ok s => s
  | .error (_, s) => s

/-- Counter-log bookkeeping between two states: the counter grows by
exactly the number of `Moved` lines added to the log. -/
def Bal (s s' : ScanState) : Prop :=
  s'.movedCount + (s.log.filter LogLine.isMoved).length =
    s.movedCount + (s'.log.filter LogLine.isMoved).length

lemma processBoxes_cons_pos (t : Rat) (os : String → Bool) (f : String)
    (b : Box) (rest : List Box) (s : ScanState) (hq : qualifies t b = true) :
    processBoxes t os f (b :: rest) s =
      match shutilMove os s f with
      | .error e => .error (e, s)
      | .ok s1 => .ok (recordMove s1 f b.conf) := by
  simp [processBoxes, hq]

lemma processBoxes_cons_neg (t : Rat) (os : String → Bool) (f : String)
    (b : Box) (rest : List Box) (s : ScanState) (hq : qualifies t b = false) :
    processBoxes t os f (b :: rest) s = processBoxes t os f rest s := by
  simp [processBoxes, hq]

lemma processBoxes_of_none (t : Rat) (os : String → Bool) (f : String)
    (g : List Box) (s : ScanState) (h : ∀ b ∈ g, qualifies t b = false) :
    processBoxes t os f g s = .ok s := by
  induction g with
  | nil => rfl
  | cons b rest ih =>
    rw [processBoxes_cons_neg t os f b rest s (h b (List.mem_cons_self b rest))]
    exact ih fun x hx => h x (List.mem_cons_of_mem b hx)

lemma processBoxes_of_some (t : Rat) (os : String → Bool) (f : String)
    (g : List Box) (b : Box) (s : ScanState)
    (h : g.find? (qualifies t) = some b) :
    processBoxes t os f g s =
      match shutilMove os s f with
      | .error e => .error (e, s)
      | .ok s1 => .ok (recordMove s1 f b.conf) := by
  induction g with
  | nil => simp at h
  | cons x rest ih =>
    cases hq : qualifies t x with
    | true =>
      rw [List.find?_cons_of_pos rest hq] at h
      injection h with hb
      subst hb
      exact processBoxes_cons_pos t os f x rest s hq
    | false =>
      rw [List.find?_cons_of_neg rest (by simp [hq])] at h
      rw [processBoxes_cons_neg t os f x rest s hq]
      exact ih h

lemma processBoxes_cases (t : Rat) (os : String → Bool) (f : String)
    (g : List Box) (s : ScanState) :
    processBoxes t os f g s = .ok s ∨
      (∃ e, processBoxes t os f g s = .error (e, s)) ∨
      (∃ c, os f = false ∧ f ∈ s.nonPerson ∧
        processBoxes t os f g s = .ok (applyMove s f c)) := by
  cases hf : g.find? (qualifies t) with
  | none =>
    left
    exact processBoxes_of_none t os f g s
      fun b hb => by simpa using List.find?_eq_none.mp hf b hb
  | some b =>
    by_cases hmem : f ∈ s.nonPerson
    · cases hos : os f with
      | true =>
        right; left
        refine ⟨"Permission denied", ?_⟩
        rw [processBoxes_of_some t os f g b s hf]
        simp [shutilMove, hmem, hos]
      | false =>
        right; right
        refine ⟨b.conf, rfl, hmem, ?_⟩
        rw [processBoxes_of_some t os f g b s hf]
        simp [shutilMove, hmem, hos, applyMove]
    · right; left
      refine ⟨"No such file or directory", ?_⟩
      rw [processBoxes_of_some t os f g b s hf]
      simp [shutilMove, hmem]

lemma processBoxes_stuck (t : Rat) (os : String → Bool) (f : String)
    (g : List Box) (s : ScanState) (h : f ∉ s.nonPerson ∨ os f = true) :
    processBoxes t os f g s = .ok s ∨
      ∃ e, processBoxes t os f g s = .error (e, s) := by
  rcases processBoxes_cases t os f g s with h1 | h1 | ⟨c, hos, hmem, _⟩
  · exact Or.inl h1
  · exact Or.inr h1
  · rcases h with h | h
    · exact absurd hmem h
    · rw [hos] at h; cases h

lemma processResults_stuck (t : Rat) (os : String → Bool) (f : String)
    (gs : List (List Box)) (s : ScanState) (h : f ∉ s.nonPerson ∨ os f = true) :
    processResults t os f gs s = .ok s ∨
      ∃ e, processResults t os f gs s = .error (e, s) := by
  induction gs with
  | nil => exact Or.inl rfl
  | cons g rest ih =>
    rcases processBoxes_stuck t os f g s h with h1 | ⟨e, h1⟩
    · rcases ih with h2 | ⟨e, h2⟩
      · left; simp only [processResults, h1]; exact h2
      · right; exact ⟨e, by simp only [processResults, h1]; exact h2⟩
    · right; exact ⟨e, by simp only [processResults, h1]⟩

lemma processResults_none (t : Rat) (os : String → Bool) (f : String)
    (gs : List (List Box)) (s : ScanState)
    (hf : gs.flatten.find? (qualifies t) = none) :
    processResults t os f gs s = .ok s := by
  induction gs with
  | nil => rfl
  | cons g rest ih =>
    rw [List.flatten_cons, List.find?_append] at hf
    rcases Option.or_eq_none.mp hf with ⟨hg, hrest⟩
    have h1 : processBoxes t os f g s = .ok s :=
      processBoxes_of_none t os f g s
        fun b hb => by simpa using List.find?_eq_none.mp hg b hb
    simp only [processResults, h1]
    exact ih hrest

lemma processResults_hit_error (t : Rat) (os : String → Bool) (f : String)
    (gs : List (List Box)) (b : Box) (e : String) (s : ScanState)
    (hf : gs.flatten.find? (qualifies t) = some b)
    (he : shutilMove os s f = .error e) :
    processResults t os f gs s = .error (e, s) := by
  induction gs with
  | nil => simp at hf
  | cons g rest ih =>
    rw [List.flatten_cons, List.find?_append] at hf
    cases hg : g.find? (qualifies t) with
    | some b' =>
      have h1 := processBoxes_of_some t os f g b' s hg
      rw [he] at h1
      simp only [processResults, h1]
    | none =>
      rw [hg, Option.none_or] at hf
      have h1 : processBoxes t os f g s = .ok s :=
        processBoxes_of_none t os f g s
          fun x hx => by simpa using List.find?_eq_none.mp hg x hx
      simp only [processResults, h1]
      exact ih hf

lemma processResults_hit_ok (t : Rat) (os : String → Bool) (f : String)
    (gs : List (List Box)) (b : Box) (s : ScanState)
    (hf : gs.flatten.find? (qualifies t) = some b)
    (hmem : f ∈ s.nonPerson) (hos : os f = false) (hnd : s.nonPerson.Nodup) :
    processResults t os f gs s = .ok (applyMove s f b.conf) ∨
      ∃ e, processResults t os f gs s = .error (e, applyMove s f b.conf) := by
  induction gs with
  | nil => simp at hf
  | cons g rest ih =>
    rw [List.flatten_cons, List.find?_append] at hf
    cases hg : g.find? (qualifies t) with
    | some b' =>
      rw [hg] at hf
      simp only [Option.or_some] at hf
      injection hf with hb
      subst hb
      have h1 := processBoxes_of_some t os f g b' s hg
      have hmv : shutilMove os s f = .ok (doMove s f) := by
        simp [shutilMove, hmem, hos]
      rw [hmv] at h1
      simp only [processResults, h1]
      have hout : f ∉ (applyMove s f b'.conf).nonPerson := by
        simp only [applyMove, recordMove, doMove]
        exact hnd.not_mem_erase
      exact processResults_stuck t os f rest (applyMove s f b'.conf) (Or.inl hout)
    | none =>
      rw [hg, Option.none_or] at hf
      have h1 : processBoxes t os f g s = .ok s :=
        processBoxes_of_none t os f g s
          fun x hx => by simpa using List.find?_eq_none.mp hg x hx
      simp only [processResults, h1]
      exact ih hf

lemma processFile_char (detect : String → DetectOutcome) (t : Rat)
    (os : String → Bool) (s : ScanState) (f : String)
    (hnd : s.nonPerson.Nodup) (hmem : f ∈ s.nonPerson) :
    (processFile detect t os s f).matchRecords =
        s.matchRecords ++ contrib detect t os f ∧
    (processFile detect t os s f).movedCount =
        s.movedCount + (contrib detect t os f).length ∧
    (processFile detect t os s f).nonPerson =
        (if contrib detect t os f = [] then s.nonPerson
         else s.nonPerson.erase f) := by
  by_cases him : isImage f
  · cases hd : detect f with
    | err e => simp [processFile, contrib, him, hd]
    | ok rs =>
      cases hf : rs.flatten.find? (qualifies t) with
      | none =>
        have h1 := processResults_none t os f rs s hf
        simp [processFile, contrib, him, hd, hf, h1]
      | some b =>
        cases hos : os f with
        | true =>
          have he : shutilMove os s f = .error "Permission denied" := by
            simp [shutilMove, hmem, hos]
          have h1 := processResults_hit_error t os f rs b "Permission denied" s hf he
          simp [processFile, contrib, him, hd, hf, hos, h1]
        | false =>
          rcases processResults_hit_ok t os f rs b s hf hmem hos hnd with h1 | ⟨e, h1⟩
          · simp [processFile, contrib, him, hd, hf, hos, h1, applyMove,
              recordMove, doMove]
          · simp [processFile, contrib, him, hd, hf, hos, h1, applyMove,
              recordMove, doMove]
  · simp [processFile, contrib, him]

lemma bal_refl (s : ScanState) : Bal s s := rfl

lemma bal_trans {s1 s2 s3 : ScanState} (h1 : Bal s1 s2) (h2 : Bal s2 s3) :
    Bal s1 s3 := by
  unfold Bal at h1 h2 ⊢
  omega

lemma bal_errline (s : ScanState) (f e : String) :
    Bal s { s with log := s.log ++ [.errorLine f e] } := by
  simp [Bal, List.filter_append, List.filter_cons, LogLine.isMoved]

lemma bal_applyMove (s : ScanState) (f : String) (c : Rat) :
    Bal s (applyMove s f c) := by
  simp [Bal, applyMove, recordMove, doMove, List.filter_append,
    List.filter_cons, LogLine.isMoved]
  omega

lemma processResults_bal (t : Rat) (os : String → Bool) (f : String)
    (gs : List (List Box)) : ∀ s : ScanState,
    Bal s (stateOf (processResults t os f gs s)) := by
  induction gs with
  | nil => intro s; exact bal_refl s
  | cons g rest ih =>
    intro s
    rcases processBoxes_cases t os f g s with h1 | ⟨e, h1⟩ | ⟨c, _, _, h1⟩
    · simp only [processResults, h1]
      exact ih s
    · simp only [processResults, h1, stateOf]
      exact bal_refl s
    · simp only [processResults, h1]
      exact bal_trans (bal_applyMove s f c) (ih (applyMove s f c))

lemma processFile_bal (detect : String → DetectOutcome) (t : Rat)
    (os : String → Bool) (s : ScanState) (f : String) :
    Bal s (processFile detect t os s f) := by
  by_cases him : isImage f
  · cases hd : detect f with
    | err e =>
      simp only [processFile, him, if_true, hd]
      exact bal_errline s f e
    | ok rs =>
      have hb := processResults_bal t os f rs s
      cases heq : processResults t os f rs s with
      | ok s1 =>
        rw [heq] at hb
        simp only [processFile, him, if_true, hd, heq]
        exact hb
      | error es =>
        obtain ⟨e, s1⟩ := es
        rw [heq] at hb
        simp only [processFile, him, if_true, hd, heq]
        exact bal_trans hb (bal_errline s1 f e)
  · simp only [processFile, him]
    exact bal_refl s

lemma scanFold_bal (detect : String → DetectOutcome) (t : Rat)
    (os : String → Bool) (fs : List String) : ∀ s : ScanState,
    Bal s (scanFold detect t os fs s) := by
  induction fs with
  | nil => intro s; exact bal_refl s
  | cons f fs ih =>
    intro s
    exact bal_trans (processFile_bal detect t os s f)
      (ih (processFile detect t os s f))

lemma contrib_cases (detect : String → DetectOutcome) (t : Rat)
    (os : String → Bool) (f : String) :
    contrib detect t os f = [] ∨
      ∃ c, contrib detect t os f = [(f, c)] := by
  by_cases him : isImage f
  · cases hd : detect f with
    | err e => left; simp [contrib, him, hd]
    | ok rs =>
      cases hf : rs.flatten.find? (qualifies t) with
      | none => left; simp [contrib, him, hd, hf]
      | some b =>
        cases hos : os f with
        | true => left; simp [contrib, him, hd, hf, hos]
        | false => right; exact ⟨b.conf, by simp [contrib, him, hd, hf, hos]⟩
  · left; simp [contrib, him]

lemma contrib_mono (detect : String → DetectOutcome) (t1 t2 : Rat)
    (os : String → Bool) (f : String) (h12 : t1 ≤ t2)
    (hne : contrib detect t2 os f ≠ []) : contrib detect t1 os f ≠ [] := by
  by_cases him : isImage f
  · cases hd : detect f with
    | err e => exact absurd (by simp [contrib, him, hd]) hne
    | ok rs =>
      cases hf2 : rs.flatten.find? (qualifies t2) with
      | none => exact absurd (by simp [contrib, him, hd, hf2]) hne
      | some b =>
        cases hos : os f with
        | true => exact absurd (by simp [contrib, him, hd, hf2, hos]) hne
        | false =>
          have hq2 : qualifies t2 b = true := List.find?_some hf2
          have hbmem : b ∈ rs.flatten := List.mem_of_find?_eq_some hf2
          have hq1 : qualifies t1 b = true := by
            simp only [qualifies, Bool.and_eq_true, beq_iff_eq,
              decide_eq_true_eq] at hq2 ⊢
            exact ⟨hq2.1, lt_of_le_of_lt h12 hq2.2⟩
          have hsome : (rs.flatten.find? (qualifies t1)).isSome :=
            List.find?_isSome.mpr ⟨b, hbmem, hq1⟩
          obtain ⟨b', hb'⟩ := Option.isSome_iff_exists.mp hsome
          simp [contrib, him, hd, hb', hos]
  · exact absurd (by simp [contrib, him]) hne

lemma contrib_map_fst (detect : String → DetectOutcome) (t : Rat)
    (os : String → Bool) (f : String) :
    (contrib detect t os f).map Prod.fst =
      (if contrib detect t os f = [] then [] else [f]) := by
  rcases contrib_cases detect t os f with h | ⟨c, h⟩
  · simp [h]
  · simp [h]

lemma mem_contribs_map_fst (detect : String → DetectOutcome) (t : Rat)
    (os : String → Bool) (fs : List String) (x : String) :
    x ∈ (contribs detect t os fs).map Prod.fst ↔
      ∃ f ∈ fs, x = f ∧ contrib detect t os f ≠ [] := by
  induction fs with
  | nil => simp [contribs]
  | cons f fs ih =>
    rw [show contribs detect t os (f :: fs) =
      contrib detect t os f ++ contribs detect t os fs from rfl]
    rw [List.map_append, List.mem_append, ih, contrib_map_fst]
    by_cases hc : contrib detect t os f = []
    · simp only [hc, if_true, List.not_mem_nil, false_or]
      constructor
      · rintro ⟨g, hg, hx, hne⟩
        exact ⟨g, List.mem_cons_of_mem f hg, hx, hne⟩
      · rintro ⟨g, hg, hx, hne⟩
        rcases List.mem_cons.mp hg with h | h
        · exact absurd (h ▸ hc) (h ▸ hne)
        · exact ⟨g, h, hx, hne⟩
    · simp only [hc, if_false, List.mem_singleton]
      constructor
      · rintro (h | ⟨g, hg, hx, hne⟩)
        · exact ⟨f, List.mem_cons_self f fs, h, hc⟩
        · exact ⟨g, List.mem_cons_of_mem f hg, hx, hne⟩
      · rintro ⟨g, hg, hx, hne⟩
        rcases List.mem_cons.mp hg with h | h
        · exact Or.inl (h ▸ hx)
        · exact Or.inr ⟨g, h, hx, hne⟩

lemma contribs_eq_nil (detect : String → DetectOutcome) (t : Rat)
    (os : String → Bool) (fs : List String)
    (h : ∀ f ∈ fs, contrib detect t os f = []) :
    contribs detect t os fs = [] := by
  induction fs with
  | nil => rfl
  | cons f fs ih =>
    rw [show contribs detect t os (f :: fs) =
      contrib detect t os f ++ contribs detect t os fs from rfl]
    rw [h f (List.mem_cons_self f fs), ih fun g hg => h g (List.mem_cons_of_mem f hg)]
    rfl

lemma scanFold_char (detect : String → DetectOutcome) (t : Rat)
    (os : String → Bool) (fs : List String) : ∀ s : ScanState,
    s.nonPerson.Nodup → (∀ g ∈ fs, g ∈ s.nonPerson) → fs.Nodup →
    (scanFold detect t os fs s).matchRecords =
        s.matchRecords ++ contribs detect t os fs ∧
    (scanFold detect t os fs s).movedCount =
        s.movedCount + (contribs detect t os fs).length ∧
    (∀ g, g ∈ (scanFold detect t os fs s).nonPerson ↔
      (g ∈ s.nonPerson ∧ (g ∈ fs → contrib detect t os g = []))) ∧
    (scanFold detect t os fs s).nonPerson.Nodup := by
  induction fs with
  | nil =>
    intro s hnd _ _
    refine ⟨by simp [scanFold, contribs], by simp [scanFold, contribs], ?_, hnd⟩
    intro g
    simp [scanFold]
  | cons f fs ih =>
    intro s hnd hsub hndfs
    have hmem : f ∈ s.nonPerson := hsub f (List.mem_cons_self f fs)
    obtain ⟨hm, hc, hn⟩ := processFile_char detect t os s f hnd hmem
    have hnd' : (processFile detect t os s f).nonPerson.Nodup := by
      rw [hn]; split
      · exact hnd
      · exact hnd.erase f
    have hfnot : f ∉ fs := (List.nodup_cons.mp hndfs).1
    have hndfs' : fs.Nodup := (List.nodup_cons.mp hndfs).2
    have hsub' : ∀ g ∈ fs, g ∈ (processFile detect t os s f).nonPerson := by
      intro g hg
      have hgs : g ∈ s.nonPerson := hsub g (List.mem_cons_of_mem f hg)
      have hne : g ≠ f := fun h => hfnot (h ▸ hg)
      rw [hn]; split
      · exact hgs
      · exact (List.mem_erase_of_ne hne).mpr hgs
    obtain ⟨ihm, ihc, ihmem, ihnd⟩ := ih (processFile detect t os s f) hnd' hsub' hndfs'
    have hstep : scanFold detect t os (f :: fs) s =
        scanFold detect t os fs (processFile detect t os s f) := rfl
    refine ⟨?_, ?_, ?_, hstep ▸ ihnd⟩
    · rw [hstep, ihm, hm,
        show contribs detect t os (f :: fs) =
          contrib detect t os f ++ contribs detect t os fs from rfl,
        List.append_assoc]
    · rw [hstep, ihc, hc,
        show contribs detect t os (f :: fs) =
          contrib detect t os f ++ contribs detect t os fs from rfl,
        List.length_append, Nat.add_assoc]
    · intro g
      rw [hstep]
      have hiff := ihmem g
      by_cases hgf : g = f
      · subst hgf
        constructor
        · intro hin
          obtain ⟨h1, _⟩ := hiff.mp hin
          rw [hn] at h1
          by_cases hc0 : contrib detect t os g = []
          · exact ⟨hmem, fun _ => hc0⟩
          · rw [if_neg hc0] at h1
            exact absurd h1 hnd.not_mem_erase
        · rintro ⟨hgs, himp⟩
          have hc0 : contrib detect t os g = [] :=
            himp (List.mem_cons_self g fs)
          apply hiff.mpr
          refine ⟨?_, fun hg => absurd hg hfnot⟩
          rw [hn, if_pos hc0]
          exact hgs
      · constructor
        · intro hin
          obtain ⟨h1, h2⟩ := hiff.mp hin
          have hgs : g ∈ s.nonPerson := by
            rw [hn] at h1
            rcases Decidable.em (contrib detect t os f = []) with hc0 | hc0
            · rwa [if_pos hc0] at h1
            · rw [if_neg hc0] at h1
              exact (List.mem_erase_of_ne hgf).mp h1
          refine ⟨hgs, fun hg => ?_⟩
          rcases List.mem_cons.mp hg with h | h
          · exact absurd h hgf
          · exact h2 h
        · rintro ⟨hgs, himp⟩
          apply hiff.mpr
          refine ⟨?_, fun hg => himp (List.mem_cons_of_mem f hg)⟩
          rw [hn]; split
          · exact hgs
          · exact (List.mem_erase_of_ne hgf).mpr hgs

lemma run_ok_eq (detect : String → DetectOutcome) (os : String → Bool)
    (ts : String) (ds : Dataset) (t : Rat)
    (h0 : ds.hasDir0 = true) (h1 : ds.hasDir1 = true) :
    process_mislabeled_images none detect os ts ds t =
      .ok ⟨(scanFold detect t os ds.listing0 ⟨ds.listing0, ds.files1, [], 0, []⟩).movedCount,
           ds.root ++ "/logs/moved_files_" ++ ts ++ ".txt",
           (scanFold detect t os ds.listing0 ⟨ds.listing0, ds.files1, [], 0, []⟩).nonPerson,
           (scanFold detect t os ds.listing0 ⟨ds.listing0, ds.files1, [], 0, []⟩).person,
           (scanFold detect t os ds.listing0 ⟨ds.listing0, ds.files1, [], 0, []⟩).log,
           (scanFold detect t os ds.listing0 ⟨ds.listing0, ds.files1, [], 0, []⟩).matchRecords⟩ := by
  simp [process_mislabeled_images, h0, h1]

lemma run_char (detect : String → DetectOutcome) (os : String → Bool)
    (ts : String) (ds : Dataset) (t : Rat) (out : RunOutput)
    (hnd : ds.listing0.Nodup)
    (hout : process_mislabeled_images none detect os ts ds t = .ok out) :
    out.matchRecords = contribs detect t os ds.listing0 ∧
    out.movedCount = (contribs detect t os ds.listing0).length ∧
    (∀ g, g ∈ out.nonPerson ↔ g ∈ ds.listing0 ∧ contrib detect t os g = []) ∧
    out.nonPerson.Nodup ∧
    out.logPath = ds.root ++ "/logs/moved_files_" ++ ts ++ ".txt" := by
  cases h0 : ds.hasDir0 with
  | false => simp [process_mislabeled_images, h0] at hout
  | true =>
    cases h1 : ds.hasDir1 with
    | false => simp [process_mislabeled_images, h0, h1] at hout
    | true =>
      rw [run_ok_eq detect os ts ds t h0 h1] at hout
      injection hout with hout
      subst hout
      obtain ⟨hm, hc, hmemb, hnd'⟩ :=
        scanFold_char detect t os ds.listing0 ⟨ds.listing0, ds.files1, [], 0, []⟩
          hnd (fun g hg => hg) hnd
      refine ⟨by simpa using hm, by simpa using hc, ?_, hnd', rfl⟩
      intro g
      rw [hmemb g]
      constructor
      · rintro ⟨h1, h2⟩
        exact ⟨h1, h2 h1⟩
      · rintro ⟨h1, h2⟩
        exact ⟨h1, fun _ => h2⟩

lemma run_count_eq_moved_lines (detect : String → DetectOutcome)
    (os : String → Bool) (ts : String) (ds : Dataset) (t : Rat)
    (out : RunOutput)
    (hout : process_mislabeled_images none detect os ts ds t = .ok out) :
    out.movedCount = (out.log.filter LogLine.isMoved).length := by
  cases h0 : ds.hasDir0 with
  | false => simp [process_mislabeled_images, h0] at hout
  | true =>
    cases h1 : ds.hasDir1 with
    | false => simp [process_mislabeled_images, h0, h1] at hout
    | true =>
      rw [run_ok_eq detect os ts ds t h0 h1] at hout
      injection hout with hout
      subst hout
      have hb := scanFold_bal detect t os ds.listing0 ⟨ds.listing0, ds.files1, [], 0, []⟩
      unfold Bal at hb
      simpa using hb

lemma processFile_count_le (detect : String → DetectOutcome) (t : Rat)
    (os : String → Bool) (s : ScanState) (f : String)
    (hnd : s.nonPerson.Nodup) :
    (processFile detect t os s f).movedCount ≤ s.movedCount + 1 ∧
    (processFile detect t os s f).matchRecords.length ≤
      s.matchRecords.length + 1 := by
  by_cases hmem : f ∈ s.nonPerson
  · obtain ⟨hm, hc, _⟩ := processFile_char detect t os s f hnd hmem
    rcases contrib_cases detect t os f with h | ⟨c, h⟩ <;>
      rw [h] at hm hc <;> simp [hm, hc]
  · by_cases him : isImage f
    · cases hd : detect f with
      | err e => simp [processFile, him, hd]
      | ok rs =>
        rcases processResults_stuck t os f rs s (Or.inl hmem) with h | ⟨e, h⟩ <;>
          simp [processFile, him, hd, h]
    · simp [processFile, him]

lemma pad2_length : ∀ m, m < 100 → (pad2 m).length = 2 := by decide

/-- Claim C1, counterexample.  The claim says that on the first qualifying
Detection the file is relocated and no further Detections for that file are
evaluated, regardless of how many detection results the detector returns.
In the code the `break` of line 462 leaves only the inner box loop, so with
two result groups each holding a qualifying box the second group's box is
still evaluated: its move attempt fails (the source file is already gone)
and the handler appends an `Error processing` line after the `Moved` line.
The spec-modelled short-circuit (`specProcessFile`) stops after the first
qualifying Detection and writes no such line, so the two disagree. -/
theorem C1_counterexample :
    processFile
        (fun f => if f = "a.jpg" then
          DetectOutcome.ok [[⟨0, mkRat 9 10⟩], [⟨0, mkRat 9 10⟩]] else .ok [])
        (mkRat 2 5) (fun _ => false) ⟨["a.jpg"], [], [], 0, []⟩ "a.jpg" =
      ⟨[], ["a.jpg"],
        [.moved "a.jpg" (mkRat 9 10),
         .errorLine "a.jpg" "No such file or directory"],
        1, [("a.jpg", mkRat 9 10)]⟩ ∧
    specProcessFile
        (fun f => if f = "a.jpg" then
          DetectOutcome.ok [[⟨0, mkRat 9 10⟩], [⟨0, mkRat 9 10⟩]] else .ok [])
        (mkRat 2 5) (fun _ => false) ⟨["a.jpg"], [], [], 0, []⟩ "a.jpg" =
      ⟨[], ["a.jpg"], [.moved "a.jpg" (mkRat 9 10)], 1,
        [("a.jpg", mkRat 9 10)]⟩ ∧
    processFile
        (fun f => if f = "a.jpg" then
          DetectOutcome.ok [[⟨0, mkRat 9 10⟩], [⟨0, mkRat 9 10⟩]] else .ok [])
        (mkRat 2 5) (fun _ => false) ⟨["a.jpg"], [], [], 0, []⟩ "a.jpg" ≠
      specProcessFile
        (fun f => if f = "a.jpg" then
          DetectOutcome.ok [[⟨0, mkRat 9 10⟩], [⟨0, mkRat 9 10⟩]] else .ok [])
        (mkRat 2 5) (fun _ => false) ⟨["a.jpg"], [], [], 0, []⟩ "a.jpg" := by
  decide

/-- Claim C1, amended.  For every file scanned (the directory listing has
distinct names), at most one Match is emitted and the file is moved at most
once: the counter and the match records grow by at most one per file, and a
qualifying Detection short-circuits the remaining Detections of its own
result group.  Detections in later result groups may still be evaluated,
but a qualifying one there only yields a failed move attempt that is logged
as an error and not counted. -/
theorem C1_single_move_per_file (detect : String → DetectOutcome) (t : Rat)
    (os : String → Bool) (s : ScanState) (f : String) (b : Box)
    (rest : List Box) (hnd : s.nonPerson.Nodup) (hq : qualifies t b = true) :
    (processFile detect t os s f).movedCount ≤ s.movedCount + 1 ∧
    (processFile detect t os s f).matchRecords.length ≤
      s.matchRecords.length + 1 ∧
    processBoxes t os f (b :: rest) s = processBoxes t os f [b] s := by
  obtain ⟨h1, h2⟩ := processFile_count_le detect t os s f hnd
  refine ⟨h1, h2, ?_⟩
  simp [processBoxes, hq]

/-- Claim C1, witness for the amended theorem at a concrete input. -/
theorem C1_witness :
    (["a.jpg"] : List String).Nodup ∧
    qualifies 0 ⟨0, 1⟩ = true ∧
    ((processFile (fun _ => .ok [[⟨0, 1⟩]]) 0 (fun _ => false)
        ⟨["a.jpg"], [], [], 0, []⟩ "a.jpg").movedCount ≤ 0 + 1 ∧
     (processFile (fun _ => .ok [[⟨0, 1⟩]]) 0 (fun _ => false)
        ⟨["a.jpg"], [], [], 0, []⟩ "a.jpg").matchRecords.length ≤
       ([] : List (String × Rat)).length + 1 ∧
     processBoxes 0 (fun _ => false) "a.jpg" [⟨0, 1⟩, ⟨0, mkRat 1 2⟩]
        ⟨["a.jpg"], [], [], 0, []⟩ =
       processBoxes 0 (fun _ => false) "a.jpg" [⟨0, 1⟩]
        ⟨["a.jpg"], [], [], 0, []⟩) :=
  ⟨by decide, by decide,
    C1_single_move_per_file (fun _ => .ok [[⟨0, 1⟩]]) 0 (fun _ => false)
      ⟨["a.jpg"], [], [], 0, []⟩ "a.jpg" ⟨0, 1⟩ [⟨0, mkRat 1 2⟩]
      (by decide) (by decide)⟩

/-- Claim C2, counterexample.  The claim says a move onto an existing
target file fails, is logged as an error and is not counted.  In the code
`shutil.move` with a file-path destination overwrites an existing
destination (POSIX rename, and the copy fallback likewise), so with
`x.jpg` present in both class directories the run counts the file as
moved (`moved_count = 1`), writes a `Moved` line and no error line, and
the person directory still lists `x.jpg` once (replaced, not duplicated). -/
theorem C2_counterexample :
    process_mislabeled_images none
        (fun f => if f = "x.jpg" then .ok [[⟨0, mkRat 1 2⟩]] else .ok [])
        (fun _ => false) "T" ⟨"r", true, true, ["x.jpg"], ["x.jpg"]⟩
        (mkRat 2 5) =
      .ok ⟨1, "r/logs/moved_files_T.txt", [], ["x.jpg"],
           [.moved "x.jpg" (mkRat 1 2)], [("x.jpg", mkRat 1 2)]⟩ ∧
    (RunOutput.movedCount ⟨1, "r/logs/moved_files_T.txt", [], ["x.jpg"],
        [.moved "x.jpg" (mkRat 1 2)], [("x.jpg", mkRat 1 2)]⟩ ≠ 0) ∧
    ([LogLine.moved "x.jpg" (mkRat 1 2)].filter
        (fun l => !l.isMoved)) = [] := by
  decide

/-- Claim C2, amended.  A per-file move failure raised by the OS (for
example permission denied) is non-fatal: for an image file the detector
matched (its first qualifying Detection is reached) whose move the OS
refuses, the whole effect of the file is one `Error processing <filename>:
Permission denied` line appended to the log — in particular the counter,
the match records and both directories are unchanged — and the scan
continues with the next file.  A file with the same name already existing
in the person directory does not make the move fail: the move succeeds by
overwriting that file and is counted as moved. -/
theorem C2_move_failure_handling (detect : String → DetectOutcome) (t : Rat)
    (os : String → Bool) (s s2 : ScanState) (f f2 : String) (b : Box)
    (rs : List (List Box)) (rest : List String)
    (him : isImage f = true) (hd : detect f = .ok rs)
    (hq : rs.flatten.find? (qualifies t) = some b)
    (hmem : f ∈ s.nonPerson) (h1 : os f = true) (h2 : os f2 = false)
    (h3 : f2 ∈ s2.nonPerson) (h4 : f2 ∈ s2.person) :
    (processFile detect t os s f =
      { s with log := s.log ++ [.errorLine f "Permission denied"] } ∧
     (processFile detect t os s f).movedCount = s.movedCount ∧
     (processFile detect t os s f).matchRecords = s.matchRecords ∧
     (processFile detect t os s f).nonPerson = s.nonPerson ∧
     (processFile detect t os s f).person = s.person ∧
     scanFold detect t os (f :: rest) s =
       scanFold detect t os rest (processFile detect t os s f)) ∧
    shutilMove os s2 f2 = .ok { s2 with nonPerson := s2.nonPerson.erase f2 } := by
  have he : shutilMove os s f = .error "Permission denied" := by
    simp [shutilMove, hmem, h1]
  have hpr := processResults_hit_error t os f rs b "Permission denied" s hq he
  have hmain : processFile detect t os s f =
      { s with log := s.log ++ [.errorLine f "Permission denied"] } := by
    simp [processFile, him, hd, hpr]
  refine ⟨⟨hmain, by rw [hmain], by rw [hmain], by rw [hmain],
    by rw [hmain], rfl⟩, ?_⟩
  simp [shutilMove, h3, h2, doMove, h4]

/-- Claim C2, witness for the amended theorem at a concrete input. -/
theorem C2_witness :
    isImage "p.jpg" = true ∧
    ((fun _ : String => DetectOutcome.ok [[⟨0, 1⟩]]) "p.jpg" =
      .ok [[⟨0, 1⟩]]) ∧
    (([[⟨0, 1⟩]] : List (List Box)).flatten.find? (qualifies 0) =
      some ⟨0, 1⟩) ∧
    ("p.jpg" ∈ (⟨["p.jpg"], [], [], 0, []⟩ : ScanState).nonPerson) ∧
    ((fun g => g == "p.jpg") "p.jpg" = true) ∧
    ((fun g => g == "p.jpg") "x.jpg" = false) ∧
    ("x.jpg" ∈ (⟨["x.jpg"], ["x.jpg"], [], 0, []⟩ : ScanState).nonPerson) ∧
    ("x.jpg" ∈ (⟨["x.jpg"], ["x.jpg"], [], 0, []⟩ : ScanState).person) ∧
    ((processFile (fun _ => .ok [[⟨0, 1⟩]]) 0 (fun g => g == "p.jpg")
        ⟨["p.jpg"], [], [], 0, []⟩ "p.jpg" =
      { (⟨["p.jpg"], [], [], 0, []⟩ : ScanState) with
          log := ([] : List LogLine) ++
            [.errorLine "p.jpg" "Permission denied"] } ∧
      (processFile (fun _ => .ok [[⟨0, 1⟩]]) 0 (fun g => g == "p.jpg")
        ⟨["p.jpg"], [], [], 0, []⟩ "p.jpg").movedCount =
        (⟨["p.jpg"], [], [], 0, []⟩ : ScanState).movedCount ∧
      (processFile (fun _ => .ok [[⟨0, 1⟩]]) 0 (fun g => g == "p.jpg")
        ⟨["p.jpg"], [], [], 0, []⟩ "p.jpg").matchRecords =
        (⟨["p.jpg"], [], [], 0, []⟩ : ScanState).matchRecords ∧
      (processFile (fun _ => .ok [[⟨0, 1⟩]]) 0 (fun g => g == "p.jpg")
        ⟨["p.jpg"], [], [], 0, []⟩ "p.jpg").nonPerson =
        (⟨["p.jpg"], [], [], 0, []⟩ : ScanState).nonPerson ∧
      (processFile (fun _ => .ok [[⟨0, 1⟩]]) 0 (fun g => g == "p.jpg")
        ⟨["p.jpg"], [], [], 0, []⟩ "p.jpg").person =
        (⟨["p.jpg"], [], [], 0, []⟩ : ScanState).person ∧
      scanFold (fun _ => .ok [[⟨0, 1⟩]]) 0 (fun g => g == "p.jpg")
          ["p.jpg"] ⟨["p.jpg"], [], [], 0, []⟩ =
        scanFold (fun _ => .ok [[⟨0, 1⟩]]) 0 (fun g => g == "p.jpg") []
          (processFile (fun _ => .ok [[⟨0, 1⟩]]) 0 (fun g => g == "p.jpg")
            ⟨["p.jpg"], [], [], 0, []⟩ "p.jpg")) ∧
     shutilMove (fun g => g == "p.jpg") ⟨["x.jpg"], ["x.jpg"], [], 0, []⟩
        "x.jpg" =
       .ok { (⟨["x.jpg"], ["x.jpg"], [], 0, []⟩ : ScanState) with
              nonPerson := (["x.jpg"] : List String).erase "x.jpg" }) :=
  ⟨by decide, by decide, by decide, by decide, by decide, by decide,
    by decide, by decide,
    C2_move_failure_handling (fun _ => .ok [[⟨0, 1⟩]]) 0
      (fun g => g == "p.jpg") ⟨["p.jpg"], [], [], 0, []⟩
      ⟨["x.jpg"], ["x.jpg"], [], 0, []⟩ "p.jpg" "x.jpg" ⟨0, 1⟩
      [[⟨0, 1⟩]] [] (by decide) (by decide) (by decide) (by decide)
      (by decide) (by decide) (by decide) (by decide)⟩

/-- Claim C3.  A per-file detection failure is recovered locally: when the
detector raises for an image file, the only effect is one `Error
processing` line in the log — no Match, no move, no counter change — and
the scan continues with the remaining files.  On the concrete directory
with file A (detector raises) and file B (person detected at confidence
0.50 against threshold 0.40), the run returns `moved_count = 1`, B is
relocated, and the log holds the error line for A followed by the moved
line for B. -/
theorem C3_detection_error_recovery (detect : String → DetectOutcome)
    (t : Rat) (os : String → Bool) (s : ScanState) (f e : String)
    (rest : List String) (him : isImage f = true) (hd : detect f = .err e) :
    processFile detect t os s f = { s with log := s.log ++ [.errorLine f e] } ∧
    scanFold detect t os (f :: rest) s =
      scanFold detect t os rest { s with log := s.log ++ [.errorLine f e] } ∧
    process_mislabeled_images none
        (fun g => if g = "A.jpg" then .err "detector failure" else
                  if g = "B.jpg" then .ok [[⟨0, mkRat 1 2⟩]] else .ok [])
        (fun _ => false) "T" ⟨"r", true, true, ["A.jpg", "B.jpg"], []⟩
        (mkRat 2 5) =
      .ok ⟨1, "r/logs/moved_files_T.txt", ["A.jpg"], ["B.jpg"],
           [.errorLine "A.jpg" "detector failure", .moved "B.jpg" (mkRat 1 2)],
           [("B.jpg", mkRat 1 2)]⟩ := by
  have h1 : processFile detect t os s f =
      { s with log := s.log ++ [.errorLine f e] } := by
    simp [processFile, him, hd]
  refine ⟨h1, ?_, by decide⟩
  rw [show scanFold detect t os (f :: rest) s =
    scanFold detect t os rest (processFile detect t os s f) from rfl, h1]

/-- Claim C3, witness at a concrete input. -/
theorem C3_witness :
    isImage "A.jpg" = true ∧
    ((fun g => if g = "A.jpg" then DetectOutcome.err "boom" else .ok [])
      "A.jpg" = .err "boom") ∧
    (processFile (fun g => if g = "A.jpg" then DetectOutcome.err "boom" else .ok [])
        0 (fun _ => false) ⟨["A.jpg"], [], [], 0, []⟩ "A.jpg" =
      { (⟨["A.jpg"], [], [], 0, []⟩ : ScanState) with
          log := ([] : List LogLine) ++ [.errorLine "A.jpg" "boom"] } ∧
     scanFold (fun g => if g = "A.jpg" then DetectOutcome.err "boom" else .ok [])
        0 (fun _ => false) ["A.jpg"] ⟨["A.jpg"], [], [], 0, []⟩ =
      scanFold (fun g => if g = "A.jpg" then DetectOutcome.err "boom" else .ok [])
        0 (fun _ => false) []
        { (⟨["A.jpg"], [], [], 0, []⟩ : ScanState) with
            log := ([] : List LogLine) ++ [.errorLine "A.jpg" "boom"] } ∧
     process_mislabeled_images none
        (fun g => if g = "A.jpg" then .err "detector failure" else
                  if g = "B.jpg" then .ok [[⟨0, mkRat 1 2⟩]] else .ok [])
        (fun _ => false) "T" ⟨"r", true, true, ["A.jpg", "B.jpg"], []⟩
        (mkRat 2 5) =
      .ok ⟨1, "r/logs/moved_files_T.txt", ["A.jpg"], ["B.jpg"],
           [.errorLine "A.jpg" "detector failure", .moved "B.jpg" (mkRat 1 2)],
           [("B.jpg", mkRat 1 2)]⟩) :=
  ⟨by decide, by decide,
    C3_detection_error_recovery
      (fun g => if g = "A.jpg" then DetectOutcome.err "boom" else .ok [])
      0 (fun _ => false) ⟨["A.jpg"], [], [], 0, []⟩ "A.jpg" "boom" []
      (by decide) (by decide)⟩

/-- Claim C4, counterexample.  The claim asserts that for thresholds
t1 < t2 the set of Matches (filename-confidence records) at t2 is a subset
of those at t1.  With one file whose boxes are person detections at 0.5
then 0.9, the run at t2 = 0.7 matches the file at confidence 0.9 while the
run at t1 = 0.4 matches it at the earlier confidence 0.5, so the t2 match
record is not among the t1 match records. -/
theorem C4_counterexample :
    process_mislabeled_images none
        (fun _ => .ok [[⟨0, mkRat 1 2⟩, ⟨0, mkRat 9 10⟩]])
        (fun _ => false) "T" ⟨"r", true, true, ["f.jpg"], []⟩ (mkRat 7 10) =
      .ok ⟨1, "r/logs/moved_files_T.txt", [], ["f.jpg"],
           [.moved "f.jpg" (mkRat 9 10)], [("f.jpg", mkRat 9 10)]⟩ ∧
    process_mislabeled_images none
        (fun _ => .ok [[⟨0, mkRat 1 2⟩, ⟨0, mkRat 9 10⟩]])
        (fun _ => false) "T" ⟨"r", true, true, ["f.jpg"], []⟩ (mkRat 2 5) =
      .ok ⟨1, "r/logs/moved_files_T.txt", [], ["f.jpg"],
           [.moved "f.jpg" (mkRat 1 2)], [("f.jpg", mkRat 1 2)]⟩ ∧
    mkRat 2 5 < mkRat 7 10 ∧
    ("f.jpg", mkRat 9 10) ∉ [("f.jpg", mkRat 1 2)] := by
  decide

/-- Claim C4, amended.  Match-set monotonicity holds at the level of
matched filenames: for a fixed listing (with distinct names) and detector,
and thresholds t1 < t2, every filename matched by the run at t2 is also
matched by the run at t1 (possibly at a different confidence). -/
theorem C4_threshold_monotonicity (detect : String → DetectOutcome)
    (os : String → Bool) (ts1 ts2 : String) (ds : Dataset) (t1 t2 : Rat)
    (out1 out2 : RunOutput) (x : String) (h12 : t1 < t2)
    (hnd : ds.listing0.Nodup)
    (hr1 : process_mislabeled_images none detect os ts1 ds t1 = .ok out1)
    (hr2 : process_mislabeled_images none detect os ts2 ds t2 = .ok out2)
    (hx : x ∈ out2.matchRecords.map Prod.fst) :
    x ∈ out1.matchRecords.map Prod.fst := by
  obtain ⟨hm2, -, -, -, -⟩ := run_char detect os ts2 ds t2 out2 hnd hr2
  obtain ⟨hm1, -, -, -, -⟩ := run_char detect os ts1 ds t1 out1 hnd hr1
  rw [hm2, mem_contribs_map_fst] at hx
  obtain ⟨g, hg, hxg, hne⟩ := hx
  rw [hm1, mem_contribs_map_fst]
  exact ⟨g, hg, hxg, contrib_mono detect t1 t2 os g (le_of_lt h12) hne⟩

/-- Claim C4, witness for the amended theorem at a concrete input. -/
theorem C4_witness :
    mkRat 2 5 < mkRat 7 10 ∧
    (["f.jpg"] : List String).Nodup ∧
    process_mislabeled_images none (fun _ => .ok [[⟨0, mkRat 9 10⟩]])
        (fun _ => false) "T" ⟨"r", true, true, ["f.jpg"], []⟩ (mkRat 2 5) =
      .ok ⟨1, "r/logs/moved_files_T.txt", [], ["f.jpg"],
           [.moved "f.jpg" (mkRat 9 10)], [("f.jpg", mkRat 9 10)]⟩ ∧
    process_mislabeled_images none (fun _ => .ok [[⟨0, mkRat 9 10⟩]])
        (fun _ => false) "U" ⟨"r", true, true, ["f.jpg"], []⟩ (mkRat 7 10) =
      .ok ⟨1, "r/logs/moved_files_U.txt", [], ["f.jpg"],
           [.moved "f.jpg" (mkRat 9 10)], [("f.jpg", mkRat 9 10)]⟩ ∧
    "f.jpg" ∈ (RunOutput.matchRecords ⟨1, "r/logs/moved_files_T.txt", [],
        ["f.jpg"], [.moved "f.jpg" (mkRat 9 10)],
        [("f.jpg", mkRat 9 10)]⟩).map Prod.fst :=
  ⟨by decide, by decide, by decide, by decide,
    C4_threshold_monotonicity (fun _ => .ok [[⟨0, mkRat 9 10⟩]])
      (fun _ => false) "T" "U" ⟨"r", true, true, ["f.jpg"], []⟩
      (mkRat 2 5) (mkRat 7 10)
      ⟨1, "r/logs/moved_files_T.txt", [], ["f.jpg"],
        [.moved "f.jpg" (mkRat 9 10)], [("f.jpg", mkRat 9 10)]⟩
      ⟨1, "r/logs/moved_files_U.txt", [], ["f.jpg"],
        [.moved "f.jpg" (mkRat 9 10)], [("f.jpg", mkRat 9 10)]⟩
      "f.jpg" (by decide) (by decide) (by decide) (by decide) (by decide)⟩

/-- Claim C5.  The threshold comparison is strict: a Detection qualifies
exactly when its class id equals the person class (0) and its confidence
is strictly greater than the threshold, so a Detection whose confidence
equals the threshold never qualifies and is skipped like any other
non-qualifying box.  Concretely, at threshold 0.40 a detection with
confidence 0.40 yields no match while confidence 0.41 yields one. -/
theorem C5_strict_threshold (t : Rat) (os : String → Bool) (f : String)
    (b b' : Box) (rest : List Box) (s : ScanState) (heq : b.conf = t) :
    qualifies t b = false ∧
    processBoxes t os f (b :: rest) s = processBoxes t os f rest s ∧
    (qualifies t b' = true ↔ (b'.cls = 0 ∧ t < b'.conf)) ∧
    contrib (fun _ => .ok [[⟨0, mkRat 2 5⟩]]) (mkRat 2 5) (fun _ => false)
      "f.jpg" = [] ∧
    contrib (fun _ => .ok [[⟨0, mkRat 41 100⟩]]) (mkRat 2 5) (fun _ => false)
      "f.jpg" = [("f.jpg", mkRat 41 100)] := by
  have hq : qualifies t b = false := by
    simp [qualifies, heq]
  refine ⟨hq, processBoxes_cons_neg t os f b rest s hq, ?_, by decide, by decide⟩
  simp [qualifies]

/-- Claim C5, witness at a concrete input. -/
theorem C5_witness :
    (Box.conf ⟨0, mkRat 2 5⟩ = mkRat 2 5) ∧
    (qualifies (mkRat 2 5) ⟨0, mkRat 2 5⟩ = false ∧
     processBoxes (mkRat 2 5) (fun _ => false) "f.jpg"
        [⟨0, mkRat 2 5⟩] ⟨["f.jpg"], [], [], 0, []⟩ =
       processBoxes (mkRat 2 5) (fun _ => false) "f.jpg" []
        ⟨["f.jpg"], [], [], 0, []⟩ ∧
     (qualifies (mkRat 2 5) ⟨0, mkRat 41 100⟩ = true ↔
       ((Box.cls ⟨0, mkRat 41 100⟩) = 0 ∧
         mkRat 2 5 < Box.conf ⟨0, mkRat 41 100⟩)) ∧
     contrib (fun _ => .ok [[⟨0, mkRat 2 5⟩]]) (mkRat 2 5) (fun _ => false)
       "f.jpg" = [] ∧
     contrib (fun _ => .ok [[⟨0, mkRat 41 100⟩]]) (mkRat 2 5) (fun _ => false)
       "f.jpg" = [("f.jpg", mkRat 41 100)]) :=
  ⟨by decide,
    C5_strict_threshold (mkRat 2 5) (fun _ => false) "f.jpg"
      ⟨0, mkRat 2 5⟩ ⟨0, mkRat 41 100⟩ [] ⟨["f.jpg"], [], [], 0, []⟩
      (by decide)⟩

/-- Claim C6.  If either class directory (`0` or `1`) is missing under the
dataset root, the run raises a fatal error: the result is an error value,
never a completed run, so no file is read or moved and no log event line is
produced. -/
theorem C6_missing_directory_fatal (ml : Option String)
    (detect : String → DetectOutcome) (os : String → Bool) (ts : String)
    (ds : Dataset) (t : Rat) (out : RunOutput)
    (h : ds.hasDir0 = false ∨ ds.hasDir1 = false) :
    (∃ msg, process_mislabeled_images ml detect os ts ds t = .error msg) ∧
    process_mislabeled_images ml detect os ts ds t ≠ .ok out := by
  have hmsg : ∃ msg, process_mislabeled_images ml detect os ts ds t =
      .error msg := by
    cases ml with
    | some e => exact ⟨_, rfl⟩
    | none =>
      rcases h with h0 | h1
      · exact ⟨"Dataset directory not found: " ++ ds.root ++ "/0",
          by simp [process_mislabeled_images, h0]⟩
      · cases hv : ds.hasDir0 with
        | false =>
          exact ⟨"Dataset directory not found: " ++ ds.root ++ "/0",
            by simp [process_mislabeled_images, hv]⟩
        | true =>
          exact ⟨"Dataset directory not found: " ++ ds.root ++ "/1",
            by simp [process_mislabeled_images, hv, h1]⟩
  obtain ⟨msg, hmsg'⟩ := hmsg
  exact ⟨⟨msg, hmsg'⟩, fun hc => by rw [hmsg'] at hc; cases hc⟩

/-- Claim C6, witness at a concrete input. -/
theorem C6_witness :
    ((Dataset.hasDir0 ⟨"r", true, false, ["a.jpg"], []⟩ = false) ∨
      (Dataset.hasDir1 ⟨"r", true, false, ["a.jpg"], []⟩ = false)) ∧
    ((∃ msg, process_mislabeled_images none (fun _ => .ok [])
        (fun _ => false) "T" ⟨"r", true, false, ["a.jpg"], []⟩ 0 =
        .error msg) ∧
     process_mislabeled_images none (fun _ => .ok []) (fun _ => false) "T"
        ⟨"r", true, false, ["a.jpg"], []⟩ 0 ≠
       .ok ⟨0, "", [], [], [], []⟩) :=
  ⟨Or.inr (by decide),
    C6_missing_directory_fatal none (fun _ => .ok []) (fun _ => false) "T"
      ⟨"r", true, false, ["a.jpg"], []⟩ 0 ⟨0, "", [], [], [], []⟩
      (Or.inr (by decide))⟩

/-- Claim C7, counterexample.  The claim says that when zero Matches occur
the log contains only the header.  A run over a single file for which the
detector raises produces zero Matches (`moved_count = 0`, no match
records), yet its log carries an `Error processing` event line beyond the
header and blank line. -/
theorem C7_counterexample :
    process_mislabeled_images none (fun _ => .err "boom") (fun _ => false)
        "T" ⟨"r", true, true, ["A.jpg"], []⟩ (mkRat 2 5) =
      .ok ⟨0, "r/logs/moved_files_T.txt", ["A.jpg"], [],
           [.errorLine "A.jpg" "boom"], []⟩ ∧
    logFileLines [.errorLine "A.jpg" "boom"] =
      [header, "", "Error processing A.jpg: boom"] ∧
    logFileLines [.errorLine "A.jpg" "boom"] ≠ [header, ""] := by
  decide

/-- Claim C7, amended.  Each run creates a fresh log file whose path is
`<root>/logs/moved_files_<timestamp>.txt` for the timestamp captured at run
start; its contents are the fixed header line, a blank line, then one line
per event; each successful move appends a `Moved <filename> (confidence:
<xx.xx>)` line with the confidence rendered to exactly two decimal places;
and when no event lines at all were written (zero Matches and zero per-file
errors) the log holds only the header and the returned `moved_count` is
zero. -/
theorem C7_log_file_contract (detect : String → DetectOutcome)
    (os : String → Bool) (ts : String) (ds : Dataset) (t : Rat)
    (out : RunOutput) (q : Rat)
    (hout : process_mislabeled_images none detect os ts ds t = .ok out) :
    out.logPath = ds.root ++ "/logs/moved_files_" ++ ts ++ ".txt" ∧
    logFileLines out.log = header :: "" :: out.log.map LogLine.render ∧
    (out.log = [] → out.movedCount = 0 ∧ logFileLines out.log = [header, ""]) ∧
    (∀ l ∈ out.log, (∃ g c, l = .moved g c ∧
        LogLine.render l = "Moved " ++ g ++ " (confidence: " ++ fmt2 c ++ ")") ∨
      (∃ g m, l = .errorLine g m ∧
        LogLine.render l = "Error processing " ++ g ++ ": " ++ m)) ∧
    (∃ n : Nat, fmt2 q = toString (n / 100) ++ "." ++ pad2 (n % 100) ∧
      (pad2 (n % 100)).length = 2) := by
  have hcount := run_count_eq_moved_lines detect os ts ds t out hout
  have hpath : out.logPath =
      ds.root ++ "/logs/moved_files_" ++ ts ++ ".txt" := by
    cases h0 : ds.hasDir0 with
    | false => simp [process_mislabeled_images, h0] at hout
    | true =>
      cases h1 : ds.hasDir1 with
      | false => simp [process_mislabeled_images, h0, h1] at hout
      | true =>
        rw [run_ok_eq detect os ts ds t h0 h1] at hout
        injection hout with heq
        rw [← heq]
  refine ⟨hpath, rfl, ?_, ?_, ?_⟩
  · intro hnil
    refine ⟨?_, by rw [hnil]; rfl⟩
    rw [hcount, hnil]
    rfl
  · intro l _
    cases l with
    | moved g c => exact Or.inl ⟨g, c, rfl, rfl⟩
    | errorLine g m => exact Or.inr ⟨g, m, rfl, rfl⟩
  · refine ⟨(q.num.toNat * 200 + q.den) / (2 * q.den), rfl, ?_⟩
    exact pad2_length _ (Nat.mod_lt _ (by norm_num))

/-- Claim C7, witness for the amended theorem at a concrete input. -/
theorem C7_witness :
    process_mislabeled_images none (fun _ => .ok [[⟨0, mkRat 1 2⟩]])
        (fun _ => false) "20250101_120000" ⟨"r", true, true, ["B.jpg"], []⟩
        (mkRat 2 5) =
      .ok ⟨1, "r/logs/moved_files_20250101_120000.txt", [], ["B.jpg"],
           [.moved "B.jpg" (mkRat 1 2)], [("B.jpg", mkRat 1 2)]⟩ ∧
    (RunOutput.logPath ⟨1, "r/logs/moved_files_20250101_120000.txt", [],
        ["B.jpg"], [.moved "B.jpg" (mkRat 1 2)], [("B.jpg", mkRat 1 2)]⟩ =
      "r" ++ "/logs/moved_files_" ++ "20250101_120000" ++ ".txt" ∧
     logFileLines [.moved "B.jpg" (mkRat 1 2)] =
      header :: "" :: [LogLine.moved "B.jpg" (mkRat 1 2)].map LogLine.render ∧
     (([LogLine.moved "B.jpg" (mkRat 1 2)] : List LogLine) = [] →
       (1 : Nat) = 0 ∧
       logFileLines [.moved "B.jpg" (mkRat 1 2)] = [header, ""]) ∧
     (∀ l ∈ [LogLine.moved "B.jpg" (mkRat 1 2)], (∃ g c, l = .moved g c ∧
         LogLine.render l =
           "Moved " ++ g ++ " (confidence: " ++ fmt2 c ++ ")") ∨
       (∃ g m, l = .errorLine g m ∧
         LogLine.render l = "Error processing " ++ g ++ ": " ++ m)) ∧
     (∃ n : Nat, fmt2 (mkRat 1 2) =
        toString (n / 100) ++ "." ++ pad2 (n % 100) ∧
       (pad2 (n % 100)).length = 2)) :=
  ⟨by decide,
    C7_log_file_contract (fun _ => .ok [[⟨0, mkRat 1 2⟩]]) (fun _ => false)
      "20250101_120000" ⟨"r", true, true, ["B.jpg"], []⟩ (mkRat 2 5)
      ⟨1, "r/logs/moved_files_20250101_120000.txt", [], ["B.jpg"],
        [.moved "B.jpg" (mkRat 1 2)], [("B.jpg", mkRat 1 2)]⟩
      (mkRat 1 2) (by decide)⟩

/-- Claim C8.  Re-run idempotence: a second run over the dataset left
behind by a successful first run scans only the non-person directory, so a
file A moved by the first run is absent from the second run's listing and
is never re-matched; with the same deterministic detector and OS behaviour
the second run in fact matches nothing at all, so it moves no more files
than the first (0 ≤ moved_count of run one). -/
theorem C8_rerun_idempotence (detect : String → DetectOutcome)
    (os : String → Bool) (ts1 ts2 : String) (ds : Dataset) (t : Rat)
    (out1 out2 : RunOutput) (A : String) (hnd : ds.listing0.Nodup)
    (hr1 : process_mislabeled_images none detect os ts1 ds t = .ok out1)
    (hr2 : process_mislabeled_images none detect os ts2
      { ds with listing0 := out1.nonPerson, files1 := out1.person } t =
      .ok out2)
    (_hA1 : A ∈ ds.listing0) (hA2 : A ∉ out1.nonPerson) :
    A ∉ ({ ds with listing0 := out1.nonPerson, files1 := out1.person } : Dataset).listing0 ∧
    out2.matchRecords = [] ∧
    out2.movedCount = 0 ∧
    out2.movedCount ≤ out1.movedCount := by
  obtain ⟨hm1, hc1, hmem1, hnd1, -⟩ := run_char detect os ts1 ds t out1 hnd hr1
  obtain ⟨hm2, hc2, -, -, -⟩ := run_char detect os ts2
    { ds with listing0 := out1.nonPerson, files1 := out1.person } t out2
    hnd1 hr2
  have hall : ∀ g ∈ out1.nonPerson, contrib detect t os g = [] :=
    fun g hg => ((hmem1 g).mp hg).2
  have hnil : contribs detect t os out1.nonPerson = [] :=
    contribs_eq_nil detect t os out1.nonPerson hall
  have hm2' : out2.matchRecords = [] := hm2.trans hnil
  have hc2' : out2.movedCount = 0 := by
    rw [hc2]
    exact congrArg List.length hnil
  exact ⟨hA2, hm2', hc2', by omega⟩

/-- Claim C8, witness at a concrete input. -/
theorem C8_witness :
    (["a.jpg", "b.jpg"] : List String).Nodup ∧
    process_mislabeled_images none
        (fun g => if g = "a.jpg" then .ok [[⟨0, mkRat 9 10⟩]] else .ok [])
        (fun _ => false) "T" ⟨"r", true, true, ["a.jpg", "b.jpg"], []⟩
        (mkRat 2 5) =
      .ok ⟨1, "r/logs/moved_files_T.txt", ["b.jpg"], ["a.jpg"],
           [.moved "a.jpg" (mkRat 9 10)], [("a.jpg", mkRat 9 10)]⟩ ∧
    process_mislabeled_images none
        (fun g => if g = "a.jpg" then .ok [[⟨0, mkRat 9 10⟩]] else .ok [])
        (fun _ => false) "U" ⟨"r", true, true, ["b.jpg"], ["a.jpg"]⟩
        (mkRat 2 5) =
      .ok ⟨0, "r/logs/moved_files_U.txt", ["b.jpg"], ["a.jpg"], [], []⟩ ∧
    ("a.jpg" ∈ (["a.jpg", "b.jpg"] : List String)) ∧
    ("a.jpg" ∉ (["b.jpg"] : List String)) ∧
    (("a.jpg" ∉ (["b.jpg"] : List String)) ∧
     (RunOutput.matchRecords
        ⟨0, "r/logs/moved_files_U.txt", ["b.jpg"], ["a.jpg"], [], []⟩ = []) ∧
     (RunOutput.movedCount
        ⟨0, "r/logs/moved_files_U.txt", ["b.jpg"], ["a.jpg"], [], []⟩ = 0) ∧
     (RunOutput.movedCount
        ⟨0, "r/logs/moved_files_U.txt", ["b.jpg"], ["a.jpg"], [], []⟩ ≤
      RunOutput.movedCount
        ⟨1, "r/logs/moved_files_T.txt", ["b.jpg"], ["a.jpg"],
          [.moved "a.jpg" (mkRat 9 10)], [("a.jpg", mkRat 9 10)]⟩)) :=
  ⟨by decide, by decide, by decide, by decide, by decide,
    C8_rerun_idempotence
      (fun g => if g = "a.jpg" then .ok [[⟨0, mkRat 9 10⟩]] else .ok [])
      (fun _ => false) "T" "U" ⟨"r", true, true, ["a.jpg", "b.jpg"], []⟩
      (mkRat 2 5)
      ⟨1, "r/logs/moved_files_T.txt", ["b.jpg"], ["a.jpg"],
        [.moved "a.jpg" (mkRat 9 10)], [("a.jpg", mkRat 9 10)]⟩
      ⟨0, "r/logs/moved_files_U.txt", ["b.jpg"], ["a.jpg"], [], []⟩
      "a.jpg" (by decide) (by decide) (by decide) (by decide) (by decide)⟩

/-- Claim C9.  The scan processes exactly the entries whose names end,
case-insensitively, in `.jpg`, `.jpeg` or `.png`: the filter is the
case-insensitive suffix test, and any other entry leaves the state
untouched — it is never given to the detector (the result does not depend
on the detector at all), never moved, never logged, and raises nothing. -/
theorem C9_extension_filter (detect detect' : String → DetectOutcome)
    (t t' : Rat) (os os' : String → Bool) (s : ScanState) (f g : String)
    (h : isImage f = false) :
    processFile detect t os s f = s ∧
    processFile detect' t' os' s f = processFile detect t os s f ∧
    (isImage g =
      (".jpg".data.isSuffixOf (g.data.map Char.toLower) ||
       ".jpeg".data.isSuffixOf (g.data.map Char.toLower) ||
       ".png".data.isSuffixOf (g.data.map Char.toLower))) ∧
    isImage "photo.JPG" = true ∧ isImage "photo.jpeg" = true ∧
    isImage "photo.PnG" = true ∧ isImage "notes.txt" = false ∧
    isImage "jpg" = false := by
  refine ⟨by simp [processFile, h], by simp [processFile, h], rfl,
    by decide, by decide, by decide, by decide, by decide⟩

/-- Claim C9, witness at a concrete input. -/
theorem C9_witness :
    isImage "notes.txt" = false ∧
    (processFile (fun _ => .ok [[⟨0, 1⟩]]) 0 (fun _ => false)
        ⟨["notes.txt"], [], [], 0, []⟩ "notes.txt" =
      ⟨["notes.txt"], [], [], 0, []⟩ ∧
     processFile (fun _ => .err "boom") 1 (fun _ => true)
        ⟨["notes.txt"], [], [], 0, []⟩ "notes.txt" =
      processFile (fun _ => .ok [[⟨0, 1⟩]]) 0 (fun _ => false)
        ⟨["notes.txt"], [], [], 0, []⟩ "notes.txt" ∧
     (isImage "x.JpEg" =
       (".jpg".data.isSuffixOf ("x.JpEg".data.map Char.toLower) ||
        ".jpeg".data.isSuffixOf ("x.JpEg".data.map Char.toLower) ||
        ".png".data.isSuffixOf ("x.JpEg".data.map Char.toLower))) ∧
     isImage "photo.JPG" = true ∧ isImage "photo.jpeg" = true ∧
     isImage "photo.PnG" = true ∧ isImage "notes.txt" = false ∧
     isImage "jpg" = false) :=
  ⟨by decide,
    C9_extension_filter (fun _ => .err "boom") (fun _ => .ok [[⟨0, 1⟩]])
      1 0 (fun _ => true) (fun _ => false) ⟨["notes.txt"], [], [], 0, []⟩
      "notes.txt" "x.JpEg" (by decide)⟩

/-- Claim C10.  The `moved_count` returned by a completed run equals the
number of `Moved` event lines in its log: every successful move appends
exactly one `Moved` line together with the increment, error lines are
never counted, and nothing else touches the counter. -/
theorem C10_count_equals_moved_lines (detect : String → DetectOutcome)
    (os : String → Bool) (ts : String) (ds : Dataset) (t : Rat)
    (out : RunOutput)
    (hout : process_mislabeled_images none detect os ts ds t = .ok out) :
    out.movedCount = (out.log.filter LogLine.isMoved).length :=
  run_count_eq_moved_lines detect os ts ds t out hout

/-- Claim C10, witness at a concrete input. -/
theorem C10_witness :
    process_mislabeled_images none
        (fun g => if g = "c.jpg" then .err "boom"
                  else .ok [[⟨0, mkRat 3 4⟩]])
        (fun _ => false) "T" ⟨"r", true, true, ["c.jpg", "d.jpg"], []⟩
        (mkRat 2 5) =
      .ok ⟨1, "r/logs/moved_files_T.txt", ["c.jpg"], ["d.jpg"],
           [.errorLine "c.jpg" "boom", .moved "d.jpg" (mkRat 3 4)],
           [("d.jpg", mkRat 3 4)]⟩ ∧
    RunOutput.movedCount ⟨1, "r/logs/moved_files_T.txt", ["c.jpg"],
        ["d.jpg"], [.errorLine "c.jpg" "boom", .moved "d.jpg" (mkRat 3 4)],
        [("d.jpg", mkRat 3 4)]⟩ =
      (([LogLine.errorLine "c.jpg" "boom",
         LogLine.moved "d.jpg" (mkRat 3 4)]).filter LogLine.isMoved).length :=
  ⟨by decide,
    C10_count_equals_moved_lines
      (fun g => if g = "c.jpg" then .err "boom" else .ok [[⟨0, mkRat 3 4⟩]])
      (fun _ => false) "T" ⟨"r", true, true, ["c.jpg", "d.jpg"], []⟩
      (mkRat 2 5)
      ⟨1, "r/logs/moved_files_T.txt", ["c.jpg"], ["d.jpg"],
        [.errorLine "c.jpg" "boom", .moved "d.jpg" (mkRat 3 4)],
        [("d.jpg", mkRat 3 4)]⟩
      (by decide)⟩

end WakeVision
